import Mathlib

/-!
Verification development for the node-multihost repository.

The definitions below are a shallow embedding of the domain-routing and
dynamic-module-registration subsystem:

- `server/server-routing.js` (`setupDomainRouting`): domain map build,
  domain detection middleware, SPA catchall;
- `server/MicroserverManager.js` (`loadAllModules`, `loadSingleModule`,
  `setupAllMicroservers`, `setupSingleMicroserver`, `cleanupAll`);
- `server/ErrorHandler.js` (`handleShutdownSignal`, `emergencyShutdown`
  in-flight-shutdown guard);
- `HealthManager.handleConfigCheck` and the inline `/api/config` handler.

JavaScript-specific semantics that matter for the claims are modelled
explicitly: property lookup on plain objects and `Map`s is last-writer-wins
(modelled by prepending bindings to an association list and taking the
first match), `x || y` treats `undefined` and the empty string as falsy,
template interpolation of `undefined` prints the text "undefined", and
`host.split(':')[0]` keeps the part of the host before the first colon.
-/

namespace Multihost

/-- Association-list lookup modelling own-property access: JavaScript
`Map.get`, and the own-property part of plain-object access (module
namespace objects returned by dynamic `import()` have a null prototype,
so export lookup is own-only). Bindings are prepended on assignment, so
the first match is the most recent writer (JS assignment overwrites).
Plain-object access including the `Object.prototype` chain is
`jsObjGet`. -/
def jsLookup {α : Type} (m : List (String × α)) (k : String) : Option α :=
  (m.find? (fun p => p.1 == k)).map (fun p => p.2)

/-- The own property names of `Object.prototype`: on a plain object
`{}`, reading any of these keys without an own binding yields the
inherited member — a function, or for `__proto__` the prototype object —
which is truthy and not a string. -/
def objectProtoKeys : List String :=
  ["constructor", "hasOwnProperty", "isPrototypeOf", "propertyIsEnumerable",
    "toLocaleString", "toString", "valueOf", "__defineGetter__",
    "__defineSetter__", "__lookupGetter__", "__lookupSetter__", "__proto__"]

/-- The JavaScript value read from a plain string-valued object: an own
string property, an inherited (truthy, non-string) `Object.prototype`
member, or `undefined`. -/
inductive TargetValue where
  | str (s : String)
  | protoObj (k : String)
  | undefinedV
deriving DecidableEq

/-- Models `obj[k] = v` on a plain object with a string value: a normal
own-property write, except that key `__proto__` invokes the inherited
setter, which silently ignores a non-object value — the binding is never
created. -/
def jsObjSet (m : List (String × String)) (k v : String) :
    List (String × String) :=
  if k == "__proto__" then m else (k, v) :: m

/-- Models `obj[k]` on a plain string-valued object: an own property
shadows the prototype; otherwise an `Object.prototype` key yields the
inherited truthy member, and any other key yields `undefined`. -/
def jsObjGet (m : List (String × String)) (k : String) : TargetValue :=
  match jsLookup m k with
  | some v => .str v
  | none => if k ∈ objectProtoKeys then .protoObj k else .undefinedV

/-- Key membership in a JS-object-style association list. -/
def containsKey {α : Type} (m : List (String × α)) (k : String) : Bool :=
  (jsLookup m k).isSome

/-- Characters of a string up to (excluding) the first colon; the char-list
core of JavaScript `s.split(':')[0]`. -/
def takeUntilColon : List Char → List Char
  | [] => []
  | c :: cs => if c = ':' then [] else c :: takeUntilColon cs

/-- Models `fullHost.split(':')[0]` from the domain detection middleware:
the host with any trailing `:port` (everything from the first colon on)
removed. -/
def stripPort (s : String) : String :=
  String.mk (takeUntilColon s.data)

/-- Models the JavaScript expression `a || b` on plain-object reads:
`undefined` and the empty string are falsy; an inherited
`Object.prototype` member (a function or object) is truthy. -/
def jsOrTarget (a b : TargetValue) : TargetValue :=
  match a with
  | .str s => if s == "" then b else .str s
  | .protoObj k => .protoObj k
  | .undefinedV => b

/-- Models `req.get('host') || req.headers.host || 'localhost'`: both reads
observe the same Host header (modelled as one `Option String`), and a
missing or empty header falls through to the literal string "localhost". -/
def hostOrLocalhost (hostHeader : Option String) : String :=
  match hostHeader with
  | some s => if s == "" then "localhost" else s
  | none => "localhost"

/-- Template interpolation of a possibly-undefined string value, as in
JavaScript backtick templates: `undefined` prints as "undefined". -/
def optStr (a : Option String) : String :=
  match a with
  | some s => s
  | none => "undefined"

/-- Models `path.join(a, b)` for the plain relative segment names used in
the configuration (no separator normalisation is needed for them). -/
def pathJoin (a b : String) : String := a ++ "/" ++ b

/-- Prefix test on character lists (kernel-computable). -/
def isPrefixCharList : List Char → List Char → Bool
  | [], _ => true
  | _ :: _, [] => false
  | c :: cs, d :: ds => c = d && isPrefixCharList cs ds

/-- Models JavaScript `s.startsWith(pre)`: character-wise prefix test. -/
def jsStartsWith (s pre : String) : Bool :=
  isPrefixCharList pre.data s.data

-- ============================================
-- Configuration model (servers.config.json, the fields the routing and
-- module-management code reads)
-- ============================================

/-- One entry of `config.servers` with the fields read by
`server-routing.js` and `MicroserverManager.js`. The nested JSON shape is
flattened: `serverPath` is `paths.server`, `publicDir` is `paths.public`,
`htmlFile` is `paths.html`, `setupFunction` is `server.setupFunction`,
`serverFile` is `server.file`, `skipSPA` is `server.skipSPA`. -/
structure ServerCfg where
  id : Nat
  name : String
  domains : List String
  setupFunction : String
  serverPath : String
  serverFile : String
  skipSPA : List String
  publicDir : String
  htmlFile : String
deriving DecidableEq

/-- The configuration document: `config.servers` plus
`config.default.serverName`. -/
structure Config where
  servers : List ServerCfg
  defaultServerName : String
deriving DecidableEq

-- ============================================
-- Domain map build and domain detection middleware
-- (server/server-routing.js, setupDomainRouting)
-- ============================================

/-- Models the domain map build of `setupDomainRouting`: `domainMap` is a
plain `{}`; for each server in order, for each of its domains in order,
`domainMap[domain] = server.name`; finally
`domainMap['default'] = config.default.serverName`. Later assignments
overwrite earlier ones (prepending, see `jsLookup`), and an assignment to
key `__proto__` is a silent no-op (see `jsObjSet`). -/
def buildDomainMap (cfg : Config) : List (String × String) :=
  let m := cfg.servers.foldl
    (fun m s => s.domains.foldl (fun m d => jsObjSet m d s.name) m) []
  jsObjSet m "default" cfg.defaultServerName

/-- Models the domain detection middleware: compute
`fullHost = req.get('host') || req.headers.host || 'localhost'`, strip the
port, and set `req.targetModule = domainMap[domain] || domainMap['default']`.
Because `domainMap` is a plain object, a lookup of an `Object.prototype`
key without an own binding yields the inherited truthy member
(`TargetValue.protoObj`), which the `||` keeps; `TargetValue.undefinedV` is the
JS `undefined`. -/
def resolveRequest (cfg : Config) (hostHeader : Option String) : TargetValue :=
  let fullHost := hostOrLocalhost hostHeader
  let domain := stripPort fullHost
  let m := buildDomainMap cfg
  jsOrTarget (jsObjGet m domain) (jsObjGet m "default")

-- ============================================
-- SPA routing catchall (server/server-routing.js, setupDomainRouting)
-- ============================================

/-- Possible outcomes of the SPA catchall middleware for one request. -/
inductive SpaResult where
  /-- Models `res.status(500).send(body)` in the missing-configuration
  branch; `log` records the `console.error` diagnostic emitted there. -/
  | serverError (status : Nat) (body : String) (log : String)
  /-- Models `return next()` when a skipSPA rule matches. -/
  | deferred
  /-- Models `res.status(404).send(body)` when the HTML file is absent. -/
  | notFound (status : Nat) (body : String)
  /-- Models `res.sendFile(fullHtmlPath)`. -/
  | sendFile (path : String)
deriving DecidableEq

/-- Models `config.servers.find(s => s.name === req.targetModule)`:
`target` is `req.targetModule`, which is `undefined` (`none`) when neither
the domain nor the `default` key produced a name. -/
def findServerByName (cfg : Config) (target : Option String) : Option ServerCfg :=
  cfg.servers.find? (fun s => some s.name == target)

/-- Models the SPA routing catchall middleware. `cwd` is `process.cwd()`
and `fsExists` models `fs.existsSync` on the one path the middleware
checks. The branches in order: missing server configuration (500), skipSPA
match (defer to `next()`), file existence check (404 or `sendFile`). -/
def spaCatchall (cfg : Config) (cwd : String) (fsExists : String → Bool)
    (target : Option String) (url : String) : SpaResult :=
  match findServerByName cfg target with
  | none =>
      .serverError 500 "Server configuration error - microserver not found"
        ("[ROUTING] CRITICAL: No configuration found for module: " ++ optStr target)
  | some sc =>
      if sc.skipSPA.any (fun skipPath => jsStartsWith url skipPath) then
        .deferred
      else
        let htmlFile := pathJoin sc.publicDir sc.htmlFile
        let fullHtmlPath := pathJoin (pathJoin (pathJoin cwd "dist") "public") htmlFile
        if fsExists fullHtmlPath then
          .sendFile fullHtmlPath
        else
          .notFound 404 ("HTML file not found for microserver: " ++ optStr target)

-- ============================================
-- MicroserverManager (server/MicroserverManager.js)
-- ============================================

/-- Behaviour of a microserver instance's `cleanup` member, as observed by
`cleanupAll`: absent (or not a function), synchronously throwing, returning
a promise that rejects, or returning a promise that resolves. -/
inductive CleanupBehavior where
  | noCleanup
  | throws (msg : String)
  | rejects (msg : String)
  | resolves
deriving DecidableEq

/-- Abstraction of the value a setup function returns: its `cleanup`
behaviour is all the manager observes of it in the verified claims. -/
structure InstanceVal where
  cleanup : CleanupBehavior
deriving DecidableEq

deriving instance DecidableEq for Except

/-- One exported binding of a dynamically imported module. A setup export
is abstracted by the outcome of invoking it once with the standard options:
either it throws (`Except.error`) or returns an instance value, possibly
null/undefined (`none`). -/
inductive JsExport where
  | notFunction
  | setupFn (outcome : Except String (Option InstanceVal))
deriving DecidableEq

/-- An import oracle modelling Node's dynamic `import(path)`: failure
(module not found, syntax error, ...) or the module's export table. -/
def Imports : Type := String → Except String (List (String × JsExport))

/-- Models the module path construction of `loadSingleModule`:
`./{paths.server}/{server.file}`. -/
def modulePath (sc : ServerCfg) : String :=
  "./" ++ sc.serverPath ++ "/" ++ sc.serverFile

/-- An entry of the instance registry: `{ instance, config, setupFunction }`
as stored by `setupSingleMicroserver`. -/
structure InstanceEntry where
  instVal : Option InstanceVal
  config : ServerCfg
  setupFunction : String
deriving DecidableEq

/-- The mutable state of a `MicroserverManager`: the setup-function
registry, the instance registry, the trace of setup functions actually
invoked (used to express the isolation claims), and the load counters. -/
structure MMState where
  setupFunctions : List (String × Except String (Option InstanceVal))
  instances : List (String × InstanceEntry)
  invoked : List String
  loadedModuleCount : Nat
  failedModuleCount : Nat
  isLoaded : Bool
deriving DecidableEq

/-- The state of a freshly constructed manager. -/
def initMMState : MMState := ⟨[], [], [], 0, 0, false⟩

/-- Models `loadSingleModule`: import the module at the configured path;
on failure increment `failedModuleCount` (the catch branch). On
success, look up the configured export name: if it is a function, register
it and increment `loadedModuleCount`; otherwise the thrown `Error` is
caught by the same catch branch, incrementing `failedModuleCount`. -/
def loadSingleModule (imports : Imports) (st : MMState) (sc : ServerCfg) : MMState :=
  match imports (modulePath sc) with
  | .error _ => { st with failedModuleCount := st.failedModuleCount + 1 }
  | .ok exports =>
      match jsLookup exports sc.setupFunction with
      | some (.setupFn outcome) =>
          { st with
            setupFunctions := (sc.setupFunction, outcome) :: st.setupFunctions,
            loadedModuleCount := st.loadedModuleCount + 1 }
      | _ => { st with failedModuleCount := st.failedModuleCount + 1 }

/-- Whether `loadSingleModule` succeeds for a server: the import resolves
and the configured export name is a function. -/
def loadsOk (imports : Imports) (sc : ServerCfg) : Bool :=
  match imports (modulePath sc) with
  | .error _ => false
  | .ok exports =>
      match jsLookup exports sc.setupFunction with
      | some (.setupFn _) => true
      | _ => false

/-- The manager state after the loading loop of `loadAllModules` (counters
start from zero on a fresh manager). -/
def loadFoldState (imports : Imports) (cfg : Config) : MMState :=
  cfg.servers.foldl (loadSingleModule imports) initMMState

/-- Models `loadAllModules`: run `loadSingleModule` over every configured
server, then `throw new Error(...)` if zero modules loaded, else mark the
manager loaded. -/
def loadAllModules (imports : Imports) (cfg : Config) : Except String MMState :=
  let st := loadFoldState imports cfg
  if st.loadedModuleCount = 0 then
    .error "No microserver modules could be loaded"
  else
    .ok { st with isLoaded := true }

/-- The standard options `createSetupOptions` hands every setup function. -/
structure SetupOptions where
  shouldStart : Bool
  serverConfig : ServerCfg
  serverId : Nat
  serverName : String
deriving DecidableEq

/-- Models `createSetupOptions`. -/
def createSetupOptions (sc : ServerCfg) : SetupOptions :=
  ⟨false, sc, sc.id, sc.name⟩

/-- Models `setupSingleMicroserver`: look up the configured setup function;
if absent, skip this microserver. Otherwise invoke it (recorded in
`invoked`); a thrown error is caught and logged (the catch branch, leaving
the registries unchanged), and a returned instance is stored in the
instance registry under the server's name. -/
def setupSingleMicroserver (st : MMState) (sc : ServerCfg) : MMState :=
  match jsLookup st.setupFunctions sc.setupFunction with
  | none => st
  | some outcome =>
      let st' := { st with invoked := st.invoked ++ [sc.name] }
      match outcome with
      | .error _ => st'
      | .ok inst =>
          { st' with
            instances := (sc.name, ⟨inst, sc, sc.setupFunction⟩) :: st'.instances }

/-- Models `setupAllMicroservers`: `setupSingleMicroserver` for each server
in configuration order. Every per-server failure is absorbed inside
`setupSingleMicroserver`, so the loop is a total function: the coordinator
itself never throws. -/
def setupAllMicroservers (cfg : Config) (st : MMState) : MMState :=
  cfg.servers.foldl setupSingleMicroserver st

-- ============================================
-- cleanupAll (server/MicroserverManager.js)
-- ============================================

/-- A promise value as produced by calling a cleanup member. -/
inductive PromiseVal where
  | resolvedP
  | rejectedP (msg : String)
deriving DecidableEq

/-- A settled outcome as produced by `Promise.allSettled`. -/
inductive Settled where
  | fulfilled
  | rejectedS (msg : String)
deriving DecidableEq

/-- Accumulator of the `cleanupAll` loop: names whose cleanup member was
invoked, and the collected `cleanupPromises`. -/
structure CleanupAcc where
  invoked : List String
  promises : List PromiseVal
deriving DecidableEq

/-- The body of one `cleanupAll` loop iteration inside the `try`: if the
instance exists and has a cleanup function, call it. A synchronous throw is
an `Except.error`; otherwise the returned promise is pushed. -/
def cleanupStepTry (acc : CleanupAcc) (e : String × InstanceEntry) :
    Except String CleanupAcc :=
  match e.2.instVal with
  | none => .ok acc
  | some iv =>
      match iv.cleanup with
      | .noCleanup => .ok acc
      | .throws msg => .error msg
      | .rejects msg =>
          .ok ⟨acc.invoked ++ [e.1], acc.promises ++ [.rejectedP msg]⟩
      | .resolves =>
          .ok ⟨acc.invoked ++ [e.1], acc.promises ++ [.resolvedP]⟩

/-- One `cleanupAll` loop iteration with its catch branch: a synchronous
throw is logged and the loop continues with the accumulator unchanged,
except that the faulting cleanup was still invoked. -/
def cleanupStep (acc : CleanupAcc) (e : String × InstanceEntry) : CleanupAcc :=
  match cleanupStepTry acc e with
  | .error _ =>
      { acc with invoked := acc.invoked ++ [e.1] }
  | .ok acc' => acc'

/-- Models `Promise.allSettled`: every promise settles; rejections become
settled rejection records rather than propagating. -/
def allSettled (ps : List PromiseVal) : List Settled :=
  ps.map (fun p =>
    match p with
    | .resolvedP => .fulfilled
    | .rejectedP msg => .rejectedS msg)

/-- Models `cleanupAll`: loop over the instance registry collecting cleanup
promises (per-entry try/catch), then await `Promise.allSettled`. The
function is total: no per-instance failure escapes it. -/
def cleanupAll (insts : List (String × InstanceEntry)) :
    List String × List Settled :=
  let acc := insts.foldl cleanupStep ⟨[], []⟩
  (acc.invoked, allSettled acc.promises)

/-- Whether an instance registry entry has an invocable cleanup member
(the loop's `serverInstance.instance && typeof ... === 'function'` guard). -/
def hasCleanupFn (e : InstanceEntry) : Bool :=
  match e.instVal with
  | none => false
  | some iv =>
      match iv.cleanup with
      | .noCleanup => false
      | _ => true

/-- The promise (if any) produced by invoking an entry's cleanup member:
a synchronous throw produces no promise. -/
def promiseOf (e : InstanceEntry) : Option PromiseVal :=
  match e.instVal with
  | none => none
  | some iv =>
      match iv.cleanup with
      | .noCleanup => none
      | .throws _ => none
      | .rejects msg => some (.rejectedP msg)
      | .resolves => some .resolvedP

-- ============================================
-- ErrorHandler shutdown guard (server/ErrorHandler.js)
-- ============================================

/-- The `ErrorHandler` state observed by the shutdown guard. -/
structure EHState where
  isShuttingDown : Bool
deriving DecidableEq

/-- A shutdown trigger: an OS signal (SIGTERM/SIGINT/SIGUSR2) or an
emergency trigger (uncaught exception / unhandled rejection). -/
inductive ShutdownEvent where
  | signal (name : String)
  | emergency (reason : String)
deriving DecidableEq

/-- Models `handleShutdownSignal` followed by `gracefulShutdown`: if a
shutdown is already in progress the signal is ignored; otherwise
`gracefulShutdown` sets `isShuttingDown` and enters the cleanup routine.
The boolean reports whether the cleanup routine was entered. -/
def handleShutdownSignalStep (st : EHState) : EHState × Bool :=
  if st.isShuttingDown then (st, false) else (⟨true⟩, true)

/-- Models `emergencyShutdown`: if a shutdown is already in progress the
trigger is ignored; otherwise set `isShuttingDown` and enter the cleanup
routine. The boolean reports whether the cleanup routine was entered. -/
def emergencyShutdownStep (st : EHState) : EHState × Bool :=
  if st.isShuttingDown then (st, false) else (⟨true⟩, true)

/-- Dispatch of one shutdown event to its handler. -/
def stepShutdown (st : EHState) (e : ShutdownEvent) : EHState × Bool :=
  match e with
  | .signal _ => handleShutdownSignalStep st
  | .emergency _ => emergencyShutdownStep st

/-- One step of sequential shutdown-event processing, threading the state
and counting cleanup entries. -/
def shutdownFoldStep (acc : EHState × Nat) (e : ShutdownEvent) : EHState × Nat :=
  let r := stepShutdown acc.1 e
  (r.1, acc.2 + (if r.2 then 1 else 0))

/-- Processing of a sequence of shutdown events, counting how many times
the cleanup routine is entered. -/
def runShutdownEvents (st : EHState) (es : List ShutdownEvent) : EHState × Nat :=
  es.foldl shutdownFoldStep (st, 0)

-- ============================================
-- Debug configuration endpoint (HealthManager.handleConfigCheck and the
-- inline app.get('/api/config') handler)
-- ============================================

/-- Response of a configuration-debug endpoint: a JSON denial carrying the
listed fields (and nothing of the configuration), or the full
configuration/internals dump. -/
inductive ConfigCheckResponse where
  | denied (status : Nat) (jsonFields : List (String × String))
  | dump
deriving DecidableEq

/-- Truthiness of a possibly-absent query-parameter string:
`undefined` and the empty string are falsy. -/
def jsTruthy (a : Option String) : Bool :=
  match a with
  | some s => !(s == "")
  | none => false

/-- Models `HealthManager.handleConfigCheck`: in production without a
truthy `debug_token` query value, respond 403 with a structured JSON
denial; otherwise return the full configuration response. `nodeEnv` is
`process.env.NODE_ENV` (absent = `none`). -/
def handleConfigCheck (nodeEnv : Option String) (debugToken : Option String) :
    ConfigCheckResponse :=
  if nodeEnv == some "production" && !(jsTruthy debugToken) then
    .denied 403
      [("error", "Access denied"),
       ("message", "Configuration endpoint requires debug_token in production")]
  else
    .dump

/-- Models the inline `app.get('/api/config')` handler of the standalone
entry file: the same gate with a shorter denial body. -/
def apiConfigHandler (nodeEnv : Option String) (debugToken : Option String) :
    ConfigCheckResponse :=
  if nodeEnv == some "production" && !(jsTruthy debugToken) then
    .denied 403 [("error", "Access denied")]
  else
    .dump

-- ============================================
-- Helper lemmas: string splitting and association-list lookup
-- ============================================

lemma takeUntilColon_append (l r : List Char) :
    takeUntilColon (l ++ ':' :: r) = takeUntilColon l := by
  induction l with
  | nil => rfl
  | cons c cs ih =>
      by_cases h : c = ':'
      · simp [takeUntilColon, h]
      · simp [takeUntilColon, h, ih]

lemma takeUntilColon_of_no_colon (l : List Char) (h : ':' ∉ l) :
    takeUntilColon l = l := by
  induction l with
  | nil => rfl
  | cons c cs ih =>
      rw [List.mem_cons] at h
      push_neg at h
      have hc : ¬ c = ':' := fun hh => h.1 hh.symm
      simp [takeUntilColon, hc, ih h.2]

lemma stripPort_append_port (d p : String) :
    stripPort (d ++ ":" ++ p) = stripPort d := by
  have hdata : (d ++ ":" ++ p).data = d.data ++ ':' :: p.data := by
    simp [String.data_append]
  simp [stripPort, hdata, takeUntilColon_append]

lemma stripPort_of_no_colon (d : String) (h : ':' ∉ d.data) :
    stripPort d = d := by
  show String.mk (takeUntilColon d.data) = d
  rw [takeUntilColon_of_no_colon d.data h]

lemma jsLookup_cons {α : Type} (a : String × α) (m : List (String × α)) (k : String) :
    jsLookup (a :: m) k = if a.1 == k then some a.2 else jsLookup m k := by
  by_cases h : a.1 == k
  · simp [jsLookup, List.find?_cons_of_pos, h]
  · simp [jsLookup, List.find?_cons_of_neg, h]

lemma jsLookup_eq_some_of_mem_unique {α : Type} (m : List (String × α)) (k : String)
    (v : α) (hmem : (k, v) ∈ m) (huniq : ∀ p ∈ m, p.1 = k → p.2 = v) :
    jsLookup m k = some v := by
  induction m with
  | nil => cases hmem
  | cons a l ih =>
      rw [jsLookup_cons]
      by_cases h : a.1 = k
      · have hv : a.2 = v := huniq a (List.mem_cons_self a l) h
        simp [h, hv]
      · have hbeq : (a.1 == k) = false := by simpa using h
        rw [hbeq, if_neg Bool.false_ne_true]
        apply ih
        · rcases List.mem_cons.mp hmem with heq | hmem'
          · exfalso; apply h; rw [← heq]
          · exact hmem'
        · intro p hp; exact huniq p (List.mem_cons_of_mem a hp)

lemma jsLookup_eq_none_of_no_key {α : Type} (m : List (String × α)) (k : String)
    (h : ∀ p ∈ m, p.1 ≠ k) : jsLookup m k = none := by
  have hfind : m.find? (fun p => p.1 == k) = none := by
    rw [List.find?_eq_none]
    intro p hp
    simpa using h p hp
  simp [jsLookup, hfind]

-- ============================================
-- Helper lemmas: domain map membership
-- ============================================

lemma mem_domainFold (n : String) (doms : List String)
    (m0 : List (String × String)) (p : String × String) :
    p ∈ doms.foldl (fun m d => jsObjSet m d n) m0 ↔
      p ∈ m0 ∨ (p.1 ∈ doms ∧ p.2 = n ∧ p.1 ≠ "__proto__") := by
  induction doms generalizing m0 with
  | nil => simp
  | cons d ds ih =>
      rw [List.foldl_cons]
      by_cases hd : d = "__proto__"
      · subst hd
        have hstep : jsObjSet m0 "__proto__" n = m0 := rfl
        rw [hstep, ih]
        simp only [List.mem_cons]
        constructor
        · rintro (h | ⟨h1, h2, h3⟩)
          · exact Or.inl h
          · exact Or.inr ⟨Or.inr h1, h2, h3⟩
        · rintro (h | ⟨h1 | h1, h2, h3⟩)
          · exact Or.inl h
          · exact absurd h1 h3
          · exact Or.inr ⟨h1, h2, h3⟩
      · have hstep : jsObjSet m0 d n = (d, n) :: m0 := by
          simp [jsObjSet, hd]
        rw [hstep, ih]
        simp only [List.mem_cons, Prod.ext_iff]
        constructor
        · rintro ((⟨h1, h2⟩ | h) | ⟨h1, h2, h3⟩)
          · exact Or.inr ⟨Or.inl h1, h2, by rw [h1]; exact hd⟩
          · exact Or.inl h
          · exact Or.inr ⟨Or.inr h1, h2, h3⟩
        · rintro (h | ⟨h1 | h1, h2, h3⟩)
          · exact Or.inl (Or.inr h)
          · exact Or.inl (Or.inl ⟨h1, h2⟩)
          · exact Or.inr ⟨h1, h2, h3⟩

lemma mem_serverFold (servers : List ServerCfg)
    (m0 : List (String × String)) (p : String × String) :
    p ∈ servers.foldl
        (fun m s => s.domains.foldl (fun m d => jsObjSet m d s.name) m) m0 ↔
      p ∈ m0 ∨
        ∃ s ∈ servers, p.1 ∈ s.domains ∧ p.2 = s.name ∧ p.1 ≠ "__proto__" := by
  induction servers generalizing m0 with
  | nil => simp
  | cons s ss ih =>
      rw [List.foldl_cons, ih, mem_domainFold]
      constructor
      · rintro ((h | ⟨h1, h2, h3⟩) | ⟨t, ht, h1, h2, h3⟩)
        · exact Or.inl h
        · exact Or.inr ⟨s, List.mem_cons_self s ss, h1, h2, h3⟩
        · exact Or.inr ⟨t, List.mem_cons_of_mem s ht, h1, h2, h3⟩
      · rintro (h | ⟨t, ht, h1, h2, h3⟩)
        · exact Or.inl (Or.inl h)
        · rcases List.mem_cons.mp ht with heq | ht'
          · subst heq
            exact Or.inl (Or.inr ⟨h1, h2, h3⟩)
          · exact Or.inr ⟨t, ht', h1, h2, h3⟩

lemma buildDomainMap_eq_cons (cfg : Config) :
    buildDomainMap cfg =
      ("default", cfg.defaultServerName) ::
        cfg.servers.foldl
          (fun m s => s.domains.foldl (fun m d => jsObjSet m d s.name) m) [] :=
  rfl

lemma mem_buildDomainMap (cfg : Config) (p : String × String) :
    p ∈ buildDomainMap cfg ↔
      p = ("default", cfg.defaultServerName) ∨
        ∃ s ∈ cfg.servers, p.1 ∈ s.domains ∧ p.2 = s.name ∧ p.1 ≠ "__proto__" := by
  rw [buildDomainMap_eq_cons, List.mem_cons, mem_serverFold]
  simp

lemma jsLookup_domainMap_default (cfg : Config) :
    jsLookup (buildDomainMap cfg) "default" = some cfg.defaultServerName := by
  rw [buildDomainMap_eq_cons, jsLookup_cons]
  simp

-- ============================================
-- Helper lemmas: request resolution
-- ============================================

lemma jsOrTarget_str_self (x : String) :
    jsOrTarget (.str x) (.str x) = .str x := by
  simp [jsOrTarget]

lemma hostOrLocalhost_of_ne (h : String) (h0 : h ≠ "") :
    hostOrLocalhost (some h) = h := by
  simp [hostOrLocalhost, h0]

/-- Resolution of a request whose host is a declared domain, when that
domain is declared by exactly one server, is not the sentinel key, is not
the silently-dropped `__proto__` key, carries no colon, and the owning
server's name is truthy. -/
lemma resolve_declared_domain (cfg : Config) (A : ServerCfg) (d : String)
    (hA : A ∈ cfg.servers) (hd : d ∈ A.domains)
    (huniq : ∀ s ∈ cfg.servers, d ∈ s.domains → s = A)
    (h0 : d ≠ "") (hdef : d ≠ "default") (hproto : d ≠ "__proto__")
    (hcol : ':' ∉ d.data) (hname : A.name ≠ "") :
    resolveRequest cfg (some d) = .str A.name := by
  have hlu : jsLookup (buildDomainMap cfg) d = some A.name := by
    apply jsLookup_eq_some_of_mem_unique
    · rw [mem_buildDomainMap]
      exact Or.inr ⟨A, hA, hd, rfl, hproto⟩
    · intro p hp hpk
      rw [mem_buildDomainMap] at hp
      rcases hp with h | ⟨s, hs, hds, hval, hpr⟩
      · exfalso; apply hdef; rw [← hpk, h]
      · rw [hval, huniq s hs (hpk ▸ hds)]
  have hget : jsObjGet (buildDomainMap cfg) d = .str A.name := by
    simp [jsObjGet, hlu]
  simp [resolveRequest, hostOrLocalhost_of_ne d h0,
        stripPort_of_no_colon d hcol, hget, jsOrTarget, hname]

/-- Resolution of a request whose stripped host is declared by no server
and is not an inherited `Object.prototype` key falls back to the
configured default server name. -/
lemma resolve_unmatched_host (cfg : Config) (host : String) (h0 : host ≠ "")
    (hpk : stripPort host ∉ objectProtoKeys)
    (hnm : ∀ s ∈ cfg.servers, stripPort host ∉ s.domains) :
    resolveRequest cfg (some host) = .str cfg.defaultServerName := by
  have hdefget : jsObjGet (buildDomainMap cfg) "default"
      = .str cfg.defaultServerName := by
    simp [jsObjGet, jsLookup_domainMap_default cfg]
  by_cases hk : stripPort host = "default"
  · have hget : jsObjGet (buildDomainMap cfg) (stripPort host)
        = .str cfg.defaultServerName := by
      rw [hk]; exact hdefget
    simp only [resolveRequest, hostOrLocalhost_of_ne host h0, hget, hdefget]
    exact jsOrTarget_str_self _
  · have hlu : jsLookup (buildDomainMap cfg) (stripPort host) = none := by
      apply jsLookup_eq_none_of_no_key
      intro p hp
      rw [mem_buildDomainMap] at hp
      rcases hp with h | ⟨s, hs, hds, hval, hpr⟩
      · intro hq; apply hk; rw [← hq, h]
      · intro hq; exact hnm s hs (hq ▸ hds)
    have hget : jsObjGet (buildDomainMap cfg) (stripPort host) = .undefinedV := by
      simp [jsObjGet, hlu, hpk]
    simp [resolveRequest, hostOrLocalhost_of_ne host h0, hget, hdefget, jsOrTarget]

-- ============================================
-- Concrete configurations used by witnesses and counterexamples
-- ============================================

/-- A two-application demo configuration in the style of the spec's
concrete scenario: alpha serves a.test and localhost, beta serves b.test,
the default application is alpha. -/
def alphaS : ServerCfg :=
  ⟨1, "alpha", ["a.test", "localhost"], "setupAlpha", "alpha-server",
   "server-alpha.js", ["/api/"], "alpha-public", "index-alpha.html"⟩

/-- Second application of the demo configuration. -/
def betaS : ServerCfg :=
  ⟨2, "beta", ["b.test"], "setupBeta", "beta-server",
   "server-beta.js", [], "beta-public", "index-beta.html"⟩

/-- The demo configuration. -/
def demoCfg : Config := ⟨[alphaS, betaS], "alpha"⟩

/-- An application that declares the literal domain "default". -/
def alphaDefaultS : ServerCfg :=
  ⟨1, "alpha", ["default"], "setupAlpha", "alpha-server",
   "server-alpha.js", ["/api/"], "alpha-public", "index-alpha.html"⟩

/-- Configuration in which alpha uniquely declares the domain "default"
while the configured default application is beta. -/
def cfgDefaultShadow : Config := ⟨[alphaDefaultS, betaS], "beta"⟩

/-- An application that declares the lowercase domain example.com. -/
def exampleComS : ServerCfg :=
  ⟨1, "alpha", ["example.com"], "setupAlpha", "alpha-server",
   "server-alpha.js", [], "alpha-public", "index-alpha.html"⟩

/-- Configuration in which alpha declares example.com and the default
application is beta. -/
def cfgExampleCom : Config := ⟨[exampleComS, betaS], "beta"⟩

-- ============================================
-- Claim C1
-- ============================================

/-- Claim C1, corrected. For every configuration in which each domain
string is declared by exactly one application — and, as the code forces,
the domain is non-empty, is not the literal sentinel string "default", is
not the silently-dropped assignment key "__proto__", and contains no
colon, and the owning application's name is non-empty — a request whose
host is that domain resolves to the declaring application's name; and any
request host whose port-stripped form is not a declared domain and not an
inherited `Object.prototype` property name resolves to the configured
default application's name. -/
theorem c1_domain_router_resolution (cfg : Config) :
    (∀ A d, A ∈ cfg.servers → d ∈ A.domains →
        (∀ s ∈ cfg.servers, d ∈ s.domains → s = A) →
        d ≠ "" → d ≠ "default" → d ≠ "__proto__" → ':' ∉ d.data →
        A.name ≠ "" →
        resolveRequest cfg (some d) = .str A.name) ∧
    (∀ host : String, host ≠ "" →
        stripPort host ∉ objectProtoKeys →
        (∀ s ∈ cfg.servers, stripPort host ∉ s.domains) →
        resolveRequest cfg (some host) = .str cfg.defaultServerName) :=
  ⟨fun A d hA hd hu h0 hdef hpr hcol hn =>
      resolve_declared_domain cfg A d hA hd hu h0 hdef hpr hcol hn,
    fun host h0 hpk hnm => resolve_unmatched_host cfg host h0 hpk hnm⟩

/-- Claim C1 counterexample: in `cfgDefaultShadow` the domain "default" is
declared by exactly one application (alpha), yet resolving host "default"
yields "beta", because `setupDomainRouting` assigns
`domainMap['default'] = config.default.serverName` after the per-server
domain assignments, overwriting alpha's entry. Moreover the undeclared
host "constructor" does not resolve to the default application either:
the plain-object lookup returns the inherited truthy
`Object.prototype.constructor`, which the `||` keeps. -/
theorem c1_default_domain_shadowed :
    alphaDefaultS ∈ cfgDefaultShadow.servers ∧
    "default" ∈ alphaDefaultS.domains ∧
    (∀ s ∈ cfgDefaultShadow.servers, "default" ∈ s.domains → s = alphaDefaultS) ∧
    resolveRequest cfgDefaultShadow (some "default") = .str "beta" ∧
    alphaDefaultS.name ≠ "beta" ∧
    (∀ s ∈ cfgDefaultShadow.servers, "constructor" ∉ s.domains) ∧
    resolveRequest cfgDefaultShadow (some "constructor")
      = .protoObj "constructor" := by decide

/-- Claim C1 witness: both parts of the amended theorem evaluated on the
demo configuration. -/
theorem c1_domain_router_resolution_witness :
    resolveRequest demoCfg (some "a.test") = .str alphaS.name ∧
    resolveRequest demoCfg (some "zzz.test") = .str demoCfg.defaultServerName :=
  ⟨(c1_domain_router_resolution demoCfg).1 alphaS "a.test" (by decide) (by decide)
      (by decide) (by decide) (by decide) (by decide) (by decide) (by decide),
    (c1_domain_router_resolution demoCfg).2 "zzz.test" (by decide) (by decide)
      (by decide)⟩

-- ============================================
-- Claim C2
-- ============================================

lemma append_colon_ne_empty (d p : String) : d ++ ":" ++ p ≠ "" := by
  intro h
  have hdata : (d ++ ":" ++ p).data = [] := by rw [h]
  rw [String.data_append, String.data_append] at hdata
  have hcolon : (":" : String).data = [':'] := rfl
  rw [hcolon] at hdata
  simp at hdata

/-- Claim C2, corrected (port-suffix part). Appending a trailing colon and
port to a non-empty host leaves resolution unchanged, for every
configuration: matching is port-suffix-insensitive. (Case-insensitivity
fails; see the counterexample.) -/
theorem c2_port_suffix_insensitive (cfg : Config) (d p : String) (h0 : d ≠ "") :
    resolveRequest cfg (some (d ++ ":" ++ p)) = resolveRequest cfg (some d) := by
  simp only [resolveRequest, hostOrLocalhost_of_ne _ (append_colon_ne_empty d p),
    hostOrLocalhost_of_ne d h0, stripPort_append_port]

/-- Claim C2 counterexample: alpha declares example.com, yet host
"Example.com:8080" resolves to the default application beta rather than to
alpha, because the domain detection middleware never lowercases the host
(the lookup key keeps its capital letter and misses the map). -/
theorem c2_case_sensitivity_counterexample :
    "example.com" ∈ exampleComS.domains ∧
    exampleComS ∈ cfgExampleCom.servers ∧
    resolveRequest cfgExampleCom (some "example.com") = .str exampleComS.name ∧
    resolveRequest cfgExampleCom (some "Example.com:8080")
      ≠ resolveRequest cfgExampleCom (some "example.com") := by decide

/-- Claim C2 witness: port-suffix insensitivity evaluated on the demo
configuration. -/
theorem c2_port_suffix_insensitive_witness :
    resolveRequest demoCfg (some ("a.test" ++ ":" ++ "8080"))
      = resolveRequest demoCfg (some "a.test") :=
  c2_port_suffix_insensitive demoCfg "a.test" "8080" (by decide)

-- ============================================
-- Claim C3
-- ============================================

/-- The on-disk HTML path the SPA catchall derives for a server:
`path.join(process.cwd(), 'dist', 'public', path.join(paths.public, paths.html))`. -/
def spaHtmlPath (cwd : String) (sc : ServerCfg) : String :=
  pathJoin (pathJoin (pathJoin cwd "dist") "public") (pathJoin sc.publicDir sc.htmlFile)

/-- Claim C3: for a request routed to application A (the configuration
lookup by A's name finds A), if the request path starts with some skipSPA
entry of A the catchall defers to the next handler; otherwise it serves
exactly the file at the path derived from A's public directory and HTML
filename when that file exists, and responds 404 with a body naming A
when it does not. -/
theorem c3_spa_dispatcher (cfg : Config) (cwd : String) (fsExists : String → Bool)
    (A : ServerCfg) (url : String)
    (hfind : findServerByName cfg (some A.name) = some A) :
    (A.skipSPA.any (fun skipPath => jsStartsWith url skipPath) = true →
        spaCatchall cfg cwd fsExists (some A.name) url = .deferred) ∧
    (A.skipSPA.any (fun skipPath => jsStartsWith url skipPath) = false →
        fsExists (spaHtmlPath cwd A) = true →
        spaCatchall cfg cwd fsExists (some A.name) url
          = .sendFile (spaHtmlPath cwd A)) ∧
    (A.skipSPA.any (fun skipPath => jsStartsWith url skipPath) = false →
        fsExists (spaHtmlPath cwd A) = false →
        spaCatchall cfg cwd fsExists (some A.name) url
          = .notFound 404 ("HTML file not found for microserver: " ++ A.name)) := by
  refine ⟨fun hskip => ?_, fun hskip hex => ?_, fun hskip hex => ?_⟩
  · simp [spaCatchall, hfind, hskip]
  · simp only [spaHtmlPath, pathJoin] at hex
    simp [spaCatchall, hfind, hskip, hex, spaHtmlPath, pathJoin, optStr]
  · simp only [spaHtmlPath, pathJoin] at hex
    simp [spaCatchall, hfind, hskip, hex, spaHtmlPath, pathJoin, optStr]

/-- Claim C3 witness: on the demo configuration, an /api/ path on alpha is
deferred, a plain path on alpha serves alpha's HTML file (present in the
modelled file system), and a plain path on beta yields the 404 naming
beta. -/
theorem c3_spa_dispatcher_witness :
    spaCatchall demoCfg "/app"
        (fun pth => pth == "/app/dist/public/alpha-public/index-alpha.html")
        (some "alpha") "/api/widgets" = .deferred ∧
    spaCatchall demoCfg "/app"
        (fun pth => pth == "/app/dist/public/alpha-public/index-alpha.html")
        (some "alpha") "/anything"
      = .sendFile "/app/dist/public/alpha-public/index-alpha.html" ∧
    spaCatchall demoCfg "/app"
        (fun pth => pth == "/app/dist/public/alpha-public/index-alpha.html")
        (some "beta") "/anything"
      = .notFound 404 "HTML file not found for microserver: beta" :=
  ⟨(c3_spa_dispatcher demoCfg "/app" _ alphaS "/api/widgets" (by decide)).1 (by decide),
    (c3_spa_dispatcher demoCfg "/app" _ alphaS "/anything" (by decide)).2.1
      (by decide) (by decide),
    (c3_spa_dispatcher demoCfg "/app" _ betaS "/anything" (by decide)).2.2
      (by decide) (by decide)⟩

-- ============================================
-- Claim C7
-- ============================================

/-- Claim C7: a request whose resolved module name matches no entry of
`config.servers` is answered by the SPA catchall with a 500 server error
(the fixed body of the missing-configuration branch) while the emitted
diagnostic names the resolved module — the request is neither served a
file nor allowed to crash the listener (the middleware is a total
function). -/
theorem c7_missing_config_server_error (cfg : Config) (cwd : String)
    (fsExists : String → Bool) (target : Option String) (url : String)
    (hnone : ∀ s ∈ cfg.servers, some s.name ≠ target) :
    spaCatchall cfg cwd fsExists target url =
      .serverError 500 "Server configuration error - microserver not found"
        ("[ROUTING] CRITICAL: No configuration found for module: " ++ optStr target) := by
  have hfind : findServerByName cfg target = none := by
    rw [findServerByName, List.find?_eq_none]
    intro s hs
    simpa using hnone s hs
  simp [spaCatchall, hfind]

/-- Claim C7 witness: resolving the module name "ghost" (absent from the
demo configuration) yields the 500 response with its diagnostic. -/
theorem c7_missing_config_server_error_witness :
    spaCatchall demoCfg "/app" (fun _ => false) (some "ghost") "/" =
      .serverError 500 "Server configuration error - microserver not found"
        "[ROUTING] CRITICAL: No configuration found for module: ghost" :=
  c7_missing_config_server_error demoCfg "/app" (fun _ => false)
    (some "ghost") "/" (by decide)

-- ============================================
-- Helper lemmas: counting
-- ============================================

lemma countP_congr_on {α : Type} (l : List α) (p q : α → Bool)
    (h : ∀ a ∈ l, p a = q a) : l.countP p = l.countP q := by
  induction l with
  | nil => rfl
  | cons a t ih =>
      rw [List.countP_cons, List.countP_cons,
        ih (fun x hx => h x (List.mem_cons_of_mem a hx)),
        h a (List.mem_cons_self a t)]

lemma countP_add_countP_not {α : Type} (l : List α) (p : α → Bool) :
    l.countP p + l.countP (fun a => !p a) = l.length := by
  induction l with
  | nil => rfl
  | cons a t ih =>
      rw [List.countP_cons, List.countP_cons, List.length_cons]
      by_cases h : p a = true
      · simp [h]
        omega
      · have h' : p a = false := by simpa using h
        simp [h']
        omega

lemma countP_eq_zero_of_all_false {α : Type} (l : List α) (p : α → Bool)
    (h : ∀ a ∈ l, p a = false) : l.countP p = 0 := by
  induction l with
  | nil => rfl
  | cons a t ih =>
      rw [List.countP_cons, h a (List.mem_cons_self a t),
        ih (fun x hx => h x (List.mem_cons_of_mem a hx))]
      simp

lemma containsKey_cons {α : Type} (a : String × α) (m : List (String × α))
    (k : String) :
    containsKey (a :: m) k = (a.1 == k || containsKey m k) := by
  rw [containsKey, jsLookup_cons]
  by_cases h : (a.1 == k) = true
  · simp [h]
  · simp [h, containsKey]

-- ============================================
-- Helper lemmas: module loading fold
-- ============================================

lemma loadSingleModule_of_ok (imports : Imports) (st : MMState) (sc : ServerCfg)
    (h : loadsOk imports sc = true) :
    ∃ outcome, loadSingleModule imports st sc =
      { st with
        setupFunctions := (sc.setupFunction, outcome) :: st.setupFunctions,
        loadedModuleCount := st.loadedModuleCount + 1 } := by
  cases himp : imports (modulePath sc) with
  | error e => exfalso; simp [loadsOk, himp] at h
  | ok exports =>
      cases hlu : jsLookup exports sc.setupFunction with
      | none => exfalso; simp [loadsOk, himp, hlu] at h
      | some ex =>
          cases ex with
          | notFunction => exfalso; simp [loadsOk, himp, hlu] at h
          | setupFn outcome =>
              refine ⟨outcome, ?_⟩
              simp [loadSingleModule, himp, hlu]

lemma loadSingleModule_of_fail (imports : Imports) (st : MMState) (sc : ServerCfg)
    (h : loadsOk imports sc = false) :
    loadSingleModule imports st sc =
      { st with failedModuleCount := st.failedModuleCount + 1 } := by
  cases himp : imports (modulePath sc) with
  | error e => simp [loadSingleModule, himp]
  | ok exports =>
      cases hlu : jsLookup exports sc.setupFunction with
      | none => simp [loadSingleModule, himp, hlu]
      | some ex =>
          cases ex with
          | notFunction => simp [loadSingleModule, himp, hlu]
          | setupFn outcome => exfalso; simp [loadsOk, himp, hlu] at h

lemma loadFold_loaded (imports : Imports) (l : List ServerCfg) (st0 : MMState) :
    (l.foldl (loadSingleModule imports) st0).loadedModuleCount
      = st0.loadedModuleCount + l.countP (fun sc => loadsOk imports sc) := by
  induction l generalizing st0 with
  | nil => simp
  | cons sc t ih =>
      rw [List.foldl_cons, ih, List.countP_cons]
      by_cases h : loadsOk imports sc = true
      · obtain ⟨o, ho⟩ := loadSingleModule_of_ok imports st0 sc h
        rw [ho]
        simp [h]
        try omega
      · have h' : loadsOk imports sc = false := by simpa using h
        rw [loadSingleModule_of_fail imports st0 sc h']
        simp [h']
        try omega

lemma loadFold_failed (imports : Imports) (l : List ServerCfg) (st0 : MMState) :
    (l.foldl (loadSingleModule imports) st0).failedModuleCount
      = st0.failedModuleCount + l.countP (fun sc => !loadsOk imports sc) := by
  induction l generalizing st0 with
  | nil => simp
  | cons sc t ih =>
      rw [List.foldl_cons, ih, List.countP_cons]
      by_cases h : loadsOk imports sc = true
      · obtain ⟨o, ho⟩ := loadSingleModule_of_ok imports st0 sc h
        rw [ho]
        simp [h]
        try omega
      · have h' : loadsOk imports sc = false := by simpa using h
        rw [loadSingleModule_of_fail imports st0 sc h']
        simp [h']
        try omega

lemma loadFold_keys (imports : Imports) (l : List ServerCfg) (st0 : MMState)
    (k : String) :
    containsKey (l.foldl (loadSingleModule imports) st0).setupFunctions k = true ↔
      containsKey st0.setupFunctions k = true ∨
        ∃ sc ∈ l, loadsOk imports sc = true ∧ sc.setupFunction = k := by
  induction l generalizing st0 with
  | nil => simp
  | cons sc t ih =>
      rw [List.foldl_cons, ih]
      by_cases h : loadsOk imports sc = true
      · obtain ⟨o, ho⟩ := loadSingleModule_of_ok imports st0 sc h
        rw [ho]
        simp only [containsKey_cons, Bool.or_eq_true, beq_iff_eq]
        constructor
        · rintro ((heq | hc) | ⟨t', ht', hok, hk⟩)
          · exact Or.inr ⟨sc, List.mem_cons_self sc t, h, heq⟩
          · exact Or.inl hc
          · exact Or.inr ⟨t', List.mem_cons_of_mem sc ht', hok, hk⟩
        · rintro (hc | ⟨t', ht', hok, hk⟩)
          · exact Or.inl (Or.inr hc)
          · rcases List.mem_cons.mp ht' with heq | ht''
            · subst heq; exact Or.inl (Or.inl hk)
            · exact Or.inr ⟨t', ht'', hok, hk⟩
      · have h' : loadsOk imports sc = false := by simpa using h
        rw [loadSingleModule_of_fail imports st0 sc h']
        constructor
        · rintro (hc | ⟨t', ht', hok, hk⟩)
          · exact Or.inl hc
          · exact Or.inr ⟨t', List.mem_cons_of_mem sc ht', hok, hk⟩
        · rintro (hc | ⟨t', ht', hok, hk⟩)
          · exact Or.inl hc
          · rcases List.mem_cons.mp ht' with heq | ht''
            · subst heq; rw [h'] at hok; cases hok
            · exact Or.inr ⟨t', ht'', hok, hk⟩

-- ============================================
-- Claim C4
-- ============================================

/-- Claim C4: over a configuration in which exactly one application F's
backend file fails to import and every other application loads, the
loading pass records one failure and N-1 successes, F's setup function is
absent from the registry while every other application's setup function is
registered; `loadAllModules` returns normally when another application
exists, and raises the fatal startup error whenever zero modules load. -/
theorem c4_module_registry_loading (imports : Imports) (cfg : Config) :
    (∀ F msg, F ∈ cfg.servers →
        cfg.servers.countP (fun sc => sc == F) = 1 →
        imports (modulePath F) = .error msg →
        (∀ sc ∈ cfg.servers, sc ≠ F → loadsOk imports sc = true) →
        (∀ sc ∈ cfg.servers, sc ≠ F → sc.setupFunction ≠ F.setupFunction) →
        (loadFoldState imports cfg).failedModuleCount = 1 ∧
        (loadFoldState imports cfg).loadedModuleCount = cfg.servers.length - 1 ∧
        containsKey (loadFoldState imports cfg).setupFunctions F.setupFunction
          = false ∧
        (∀ sc ∈ cfg.servers, sc ≠ F →
          containsKey (loadFoldState imports cfg).setupFunctions sc.setupFunction
            = true) ∧
        (1 < cfg.servers.length →
          loadAllModules imports cfg
            = .ok { loadFoldState imports cfg with isLoaded := true })) ∧
    ((∀ sc ∈ cfg.servers, loadsOk imports sc = false) →
        ∃ e, loadAllModules imports cfg = .error e) := by
  constructor
  · intro F msg hmem hcount himp hok hfn
    have hFfail : loadsOk imports F = false := by
      unfold loadsOk
      rw [himp]
    have hcong : ∀ sc ∈ cfg.servers, (!loadsOk imports sc) = (sc == F) := by
      intro sc hsc
      by_cases heq : sc = F
      · subst heq
        rw [hFfail]
        simp
      · rw [hok sc hsc heq]
        simp [heq]
    have hfailcnt : cfg.servers.countP (fun sc => !loadsOk imports sc) = 1 := by
      rw [countP_congr_on cfg.servers _ _ hcong, hcount]
    have hloadcnt : cfg.servers.countP (fun sc => loadsOk imports sc)
        = cfg.servers.length - 1 := by
      have := countP_add_countP_not cfg.servers (fun sc => loadsOk imports sc)
      omega
    have hfailed := loadFold_failed imports cfg.servers initMMState
    have hloaded := loadFold_loaded imports cfg.servers initMMState
    have hlen : 0 < cfg.servers.length :=
      List.length_pos.mpr (List.ne_nil_of_mem hmem)
    refine ⟨?_, ?_, ?_, ?_, ?_⟩
    · show (loadFoldState imports cfg).failedModuleCount = 1
      rw [loadFoldState, hfailed, hfailcnt]
      simp [initMMState]
    · show (loadFoldState imports cfg).loadedModuleCount = cfg.servers.length - 1
      rw [loadFoldState, hloaded, hloadcnt]
      simp [initMMState]
    · have hiff := loadFold_keys imports cfg.servers initMMState F.setupFunction
      rw [← loadFoldState] at hiff
      have hno : ¬ (containsKey initMMState.setupFunctions F.setupFunction = true ∨
          ∃ sc ∈ cfg.servers, loadsOk imports sc = true
            ∧ sc.setupFunction = F.setupFunction) := by
        rintro (hc | ⟨sc, hsc, hokc, hkc⟩)
        · cases hc
        · have hne : sc ≠ F := by
            intro hq; subst hq; rw [hFfail] at hokc; cases hokc
          exact hfn sc hsc hne hkc
      have := hiff.not.mpr hno
      simpa using this
    · intro sc hsc hne
      have hiff := loadFold_keys imports cfg.servers initMMState sc.setupFunction
      rw [← loadFoldState] at hiff
      exact hiff.mpr (Or.inr ⟨sc, hsc, hok sc hsc hne, rfl⟩)
    · intro hgt
      have hpos : (loadFoldState imports cfg).loadedModuleCount ≠ 0 := by
        rw [loadFoldState, hloaded, hloadcnt]
        omega
      unfold loadAllModules
      rw [if_neg hpos]
  · intro hall
    have hzero : cfg.servers.countP (fun sc => loadsOk imports sc) = 0 :=
      countP_eq_zero_of_all_false cfg.servers _ hall
    have hloaded := loadFold_loaded imports cfg.servers initMMState
    have h0 : (loadFoldState imports cfg).loadedModuleCount = 0 := by
      rw [loadFoldState, hloaded, hzero]
      simp [initMMState]
    refine ⟨"No microserver modules could be loaded", ?_⟩
    unfold loadAllModules
    rw [if_pos h0]

/-- An import oracle under which alpha's backend file imports and exports
its setup function, while every other path (in particular beta's) fails
to resolve. -/
def importsAlphaOnly : Imports := fun pth =>
  if pth == "./alpha-server/server-alpha.js" then
    .ok [("setupAlpha", .setupFn (.ok (some ⟨.resolves⟩)))]
  else
    .error "ERR_MODULE_NOT_FOUND"

/-- An import oracle under which every import fails. -/
def importsNone : Imports := fun _ => .error "ERR_MODULE_NOT_FOUND"

/-- Claim C4 witness: on the demo configuration with beta's file missing,
the counts are 1 failed / 1 loaded, beta's setup function is unregistered,
alpha's is registered, and loading returns normally; with every file
missing, loading raises the fatal error. -/
theorem c4_module_registry_loading_witness :
    ((loadFoldState importsAlphaOnly demoCfg).failedModuleCount = 1 ∧
      (loadFoldState importsAlphaOnly demoCfg).loadedModuleCount
        = demoCfg.servers.length - 1 ∧
      containsKey (loadFoldState importsAlphaOnly demoCfg).setupFunctions
          betaS.setupFunction = false ∧
      (∀ sc ∈ demoCfg.servers, sc ≠ betaS →
        containsKey (loadFoldState importsAlphaOnly demoCfg).setupFunctions
            sc.setupFunction = true) ∧
      (1 < demoCfg.servers.length →
        loadAllModules importsAlphaOnly demoCfg
          = .ok { loadFoldState importsAlphaOnly demoCfg with isLoaded := true })) ∧
    (∃ e, loadAllModules importsNone demoCfg = .error e) :=
  ⟨(c4_module_registry_loading importsAlphaOnly demoCfg).1 betaS
      "ERR_MODULE_NOT_FOUND" (by decide) (by decide) (by decide)
      (by decide) (by decide),
    (c4_module_registry_loading importsNone demoCfg).2 (by decide)⟩

-- ============================================
-- Helper lemmas: microserver setup fold
-- ============================================

lemma setupSingle_setupFunctions (st : MMState) (sc : ServerCfg) :
    (setupSingleMicroserver st sc).setupFunctions = st.setupFunctions := by
  unfold setupSingleMicroserver
  cases h : jsLookup st.setupFunctions sc.setupFunction with
  | none => rfl
  | some o => cases o <;> rfl

lemma setupSingle_invoked_mono (st : MMState) (sc : ServerCfg) (x : String)
    (h : x ∈ st.invoked) : x ∈ (setupSingleMicroserver st sc).invoked := by
  unfold setupSingleMicroserver
  cases hl : jsLookup st.setupFunctions sc.setupFunction with
  | none => exact h
  | some o =>
      cases o with
      | error e => exact List.mem_append_left _ h
      | ok inst => exact List.mem_append_left _ h

lemma setupSingle_invoked_self (st : MMState) (sc : ServerCfg)
    (h : (jsLookup st.setupFunctions sc.setupFunction).isSome = true) :
    sc.name ∈ (setupSingleMicroserver st sc).invoked := by
  unfold setupSingleMicroserver
  cases hl : jsLookup st.setupFunctions sc.setupFunction with
  | none => rw [hl] at h; cases h
  | some o =>
      cases o with
      | error e => exact List.mem_append_right _ (List.mem_singleton.mpr rfl)
      | ok inst => exact List.mem_append_right _ (List.mem_singleton.mpr rfl)

lemma setupFold_invoked_mono (l : List ServerCfg) (st : MMState) (x : String)
    (h : x ∈ st.invoked) : x ∈ (l.foldl setupSingleMicroserver st).invoked := by
  induction l generalizing st with
  | nil => exact h
  | cons a t ih =>
      rw [List.foldl_cons]
      exact ih _ (setupSingle_invoked_mono st a x h)

lemma setupFold_setupFunctions (l : List ServerCfg) (st : MMState) :
    (l.foldl setupSingleMicroserver st).setupFunctions = st.setupFunctions := by
  induction l generalizing st with
  | nil => rfl
  | cons a t ih =>
      rw [List.foldl_cons, ih, setupSingle_setupFunctions]

lemma setupFold_invoked (l : List ServerCfg) (st : MMState) (sc : ServerCfg)
    (hmem : sc ∈ l)
    (hreg : (jsLookup st.setupFunctions sc.setupFunction).isSome = true) :
    sc.name ∈ (l.foldl setupSingleMicroserver st).invoked := by
  induction l generalizing st with
  | nil => cases hmem
  | cons a t ih =>
      rw [List.foldl_cons]
      rcases List.mem_cons.mp hmem with heq | hmem'
      · subst heq
        exact setupFold_invoked_mono t _ _ (setupSingle_invoked_self st sc hreg)
      · apply ih _ hmem'
        rw [setupSingle_setupFunctions]
        exact hreg

lemma setupFold_instances_keys (l : List ServerCfg) (st : MMState) (n : String) :
    containsKey (l.foldl setupSingleMicroserver st).instances n = true ↔
      containsKey st.instances n = true ∨
        ∃ sc ∈ l, sc.name = n ∧
          ∃ inst, jsLookup st.setupFunctions sc.setupFunction = some (.ok inst) := by
  induction l generalizing st with
  | nil => simp
  | cons a t ih =>
      rw [List.foldl_cons, ih, setupSingle_setupFunctions]
      cases h : jsLookup st.setupFunctions a.setupFunction with
      | none =>
          have hinst : (setupSingleMicroserver st a).instances = st.instances := by
            unfold setupSingleMicroserver; rw [h]
          rw [hinst]
          constructor
          · rintro (hc | ⟨sc, hsc, hn, inst, hlu⟩)
            · exact Or.inl hc
            · exact Or.inr ⟨sc, List.mem_cons_of_mem a hsc, hn, inst, hlu⟩
          · rintro (hc | ⟨sc, hsc, hn, inst, hlu⟩)
            · exact Or.inl hc
            · rcases List.mem_cons.mp hsc with heq | h'
              · subst heq; rw [h] at hlu; cases hlu
              · exact Or.inr ⟨sc, h', hn, inst, hlu⟩
      | some o =>
          cases o with
          | error e =>
              have hinst : (setupSingleMicroserver st a).instances = st.instances := by
                unfold setupSingleMicroserver; rw [h]
              rw [hinst]
              constructor
              · rintro (hc | ⟨sc, hsc, hn, inst, hlu⟩)
                · exact Or.inl hc
                · exact Or.inr ⟨sc, List.mem_cons_of_mem a hsc, hn, inst, hlu⟩
              · rintro (hc | ⟨sc, hsc, hn, inst, hlu⟩)
                · exact Or.inl hc
                · rcases List.mem_cons.mp hsc with heq | h'
                  · subst heq; rw [h] at hlu; simp at hlu
                  · exact Or.inr ⟨sc, h', hn, inst, hlu⟩
          | ok inst0 =>
              have hinst : (setupSingleMicroserver st a).instances
                  = (a.name, ⟨inst0, a, a.setupFunction⟩) :: st.instances := by
                unfold setupSingleMicroserver; rw [h]
              rw [hinst, containsKey_cons]
              simp only [Bool.or_eq_true, beq_iff_eq]
              constructor
              · rintro ((heq | hc) | ⟨sc, hsc, hn, inst, hlu⟩)
                · exact Or.inr ⟨a, List.mem_cons_self a t, heq, inst0, h⟩
                · exact Or.inl hc
                · exact Or.inr ⟨sc, List.mem_cons_of_mem a hsc, hn, inst, hlu⟩
              · rintro (hc | ⟨sc, hsc, hn, inst, hlu⟩)
                · exact Or.inl (Or.inr hc)
                · rcases List.mem_cons.mp hsc with heq | h'
                  · subst heq; exact Or.inl (Or.inl hn)
                  · exact Or.inr ⟨sc, h', hn, inst, hlu⟩

-- ============================================
-- Claim C5
-- ============================================

/-- Claim C5: when application K's registered initializer throws during
setup, `setupAllMicroservers` (a total function — the per-server try/catch
absorbs the failure, so the coordinator itself never throws) leaves K
without an instance-registry entry, still invokes K's initializer, and
still invokes the initializer of every application whose setup function is
registered — in particular every application after K in the
configuration. -/
theorem c5_setup_isolation (cfg : Config) (st : MMState) (K : ServerCfg)
    (msg : String)
    (hmem : K ∈ cfg.servers)
    (hthrow : jsLookup st.setupFunctions K.setupFunction = some (.error msg))
    (huniq : ∀ s ∈ cfg.servers, s.name = K.name → s = K)
    (hinit : containsKey st.instances K.name = false) :
    containsKey (setupAllMicroservers cfg st).instances K.name = false ∧
    K.name ∈ (setupAllMicroservers cfg st).invoked ∧
    (∀ s ∈ cfg.servers, (jsLookup st.setupFunctions s.setupFunction).isSome = true →
        s.name ∈ (setupAllMicroservers cfg st).invoked) := by
  refine ⟨?_, ?_, ?_⟩
  · have hiff := setupFold_instances_keys cfg.servers st K.name
    have hno : ¬ (containsKey st.instances K.name = true ∨
        ∃ sc ∈ cfg.servers, sc.name = K.name ∧
          ∃ inst, jsLookup st.setupFunctions sc.setupFunction
            = some (.ok inst)) := by
      rintro (hc | ⟨sc, hsc, hn, inst, hlu⟩)
      · rw [hinit] at hc; cases hc
      · have : sc = K := huniq sc hsc hn
        subst this
        rw [hthrow] at hlu
        simp at hlu
    have := hiff.not.mpr hno
    show containsKey (cfg.servers.foldl setupSingleMicroserver st).instances K.name
      = false
    simpa using this
  · exact setupFold_invoked cfg.servers st K hmem (by rw [hthrow]; rfl)
  · intro s hs hreg
    exact setupFold_invoked cfg.servers st s hs hreg

/-- A manager state in which alpha's registered initializer throws and
beta's returns an instance. -/
def mmStateThrowingAlpha : MMState :=
  ⟨[("setupAlpha", .error "boom"), ("setupBeta", .ok (some ⟨.resolves⟩))],
    [], [], 2, 0, true⟩

/-- Claim C5 witness: on the demo configuration with alpha's initializer
throwing, alpha ends up with no instance entry while both initializers are
invoked. -/
theorem c5_setup_isolation_witness :
    containsKey (setupAllMicroservers demoCfg mmStateThrowingAlpha).instances
        alphaS.name = false ∧
    alphaS.name ∈ (setupAllMicroservers demoCfg mmStateThrowingAlpha).invoked ∧
    (∀ s ∈ demoCfg.servers,
        (jsLookup mmStateThrowingAlpha.setupFunctions s.setupFunction).isSome
          = true →
        s.name ∈ (setupAllMicroservers demoCfg mmStateThrowingAlpha).invoked) :=
  c5_setup_isolation demoCfg mmStateThrowingAlpha alphaS "boom"
    (by decide) (by decide) (by decide) (by decide)

-- ============================================
-- Helper lemmas: cleanup fold
-- ============================================

lemma cleanupFold_spec (l : List (String × InstanceEntry)) (acc : CleanupAcc) :
    l.foldl cleanupStep acc =
      ⟨acc.invoked ++ (l.filter (fun e => hasCleanupFn e.2)).map (fun e => e.1),
        acc.promises ++ l.filterMap (fun e => promiseOf e.2)⟩ := by
  induction l generalizing acc with
  | nil => simp
  | cons e t ih =>
      rw [List.foldl_cons, ih]
      obtain ⟨n, ent⟩ := e
      cases hiv : ent.instVal with
      | none =>
          simp [cleanupStep, cleanupStepTry, hiv, hasCleanupFn, promiseOf,
            List.filter_cons, List.filterMap_cons]
      | some iv =>
          cases hcb : iv.cleanup <;>
            simp [cleanupStep, cleanupStepTry, hiv, hcb, hasCleanupFn, promiseOf,
              List.filter_cons, List.filterMap_cons]

-- ============================================
-- Claim C6
-- ============================================

/-- Claim C6: with instance K's cleanup throwing synchronously or
returning a rejecting promise, `cleanupAll` — a total function: the
per-entry try/catch is the error branch of `cleanupStep` and
`Promise.allSettled` is total, so no failure propagates out of it — still
invokes the cleanup of every registry entry that has one, and every
returned cleanup promise (the rejecting ones included) appears settled in
the awaited all-settled outcome. -/
theorem c6_cleanup_all_settled (insts : List (String × InstanceEntry))
    (K : String) (ent : InstanceEntry) (iv : InstanceVal)
    (hmem : (K, ent) ∈ insts)
    (hiv : ent.instVal = some iv)
    (hfault : (∃ m, iv.cleanup = .throws m) ∨ (∃ m, iv.cleanup = .rejects m)) :
    (∀ p ∈ insts, hasCleanupFn p.2 = true → p.1 ∈ (cleanupAll insts).1) ∧
    (cleanupAll insts).2
      = (insts.filterMap (fun p => promiseOf p.2)).map
          (fun pr => match pr with
            | .resolvedP => Settled.fulfilled
            | .rejectedP m => Settled.rejectedS m) := by
  have hfold := cleanupFold_spec insts ⟨[], []⟩
  constructor
  · intro p hp hc
    show p.1 ∈ (insts.foldl cleanupStep ⟨[], []⟩).invoked
    rw [hfold]
    simp only [List.nil_append]
    exact List.mem_map.mpr ⟨p, List.mem_filter.mpr ⟨hp, hc⟩, rfl⟩
  · show allSettled (insts.foldl cleanupStep ⟨[], []⟩).promises = _
    rw [hfold]
    simp [allSettled]

/-- A three-entry instance registry: alpha's cleanup throws synchronously,
beta's rejects, gamma's resolves. -/
def cleanupDemoInsts : List (String × InstanceEntry) :=
  [("alpha", ⟨some ⟨.throws "boom"⟩, alphaS, "setupAlpha"⟩),
    ("beta", ⟨some ⟨.rejects "nope"⟩, betaS, "setupBeta"⟩),
    ("gamma", ⟨some ⟨.resolves⟩, betaS, "setupBeta"⟩)]

/-- Claim C6 witness: on the three-entry registry with alpha's cleanup
throwing, every cleanup is invoked and both returned promises appear
settled. -/
theorem c6_cleanup_all_settled_witness :
    (∀ p ∈ cleanupDemoInsts, hasCleanupFn p.2 = true →
        p.1 ∈ (cleanupAll cleanupDemoInsts).1) ∧
    (cleanupAll cleanupDemoInsts).2
      = (cleanupDemoInsts.filterMap (fun p => promiseOf p.2)).map
          (fun pr => match pr with
            | .resolvedP => Settled.fulfilled
            | .rejectedP m => Settled.rejectedS m) :=
  c6_cleanup_all_settled cleanupDemoInsts "alpha"
    ⟨some ⟨.throws "boom"⟩, alphaS, "setupAlpha"⟩ ⟨.throws "boom"⟩
    (by decide) rfl (Or.inl ⟨"boom", rfl⟩)

-- ============================================
-- Claim C8
-- ============================================

/-- Claim C8 counterexample: in production mode, a request carrying the
debug_token query parameter with the empty-string value is denied 403
rather than served the configuration dump, in both handlers: the gate
tests JavaScript truthiness of the value, not mere presence. -/
theorem c8_empty_token_denied :
    handleConfigCheck (some "production") (some "")
      = .denied 403
          [("error", "Access denied"),
            ("message", "Configuration endpoint requires debug_token in production")] ∧
    handleConfigCheck (some "production") (some "") ≠ .dump ∧
    apiConfigHandler (some "production") (some "") ≠ .dump := by decide

/-- Claim C8, amended: in production mode with the debug_token query
parameter absent or equal to the empty string, both configuration
endpoints return the 403 structured JSON denial (carrying only the listed
fields, no configuration data); outside production, or with any non-empty
debug_token value — the value itself is never validated — the full
configuration dump is returned. -/
theorem c8_config_endpoint_gating (nodeEnv debugToken : Option String) :
    ((nodeEnv = some "production" ∧ (debugToken = none ∨ debugToken = some "")) →
        handleConfigCheck nodeEnv debugToken
          = .denied 403
              [("error", "Access denied"),
                ("message", "Configuration endpoint requires debug_token in production")] ∧
        apiConfigHandler nodeEnv debugToken
          = .denied 403 [("error", "Access denied")]) ∧
    ((nodeEnv ≠ some "production" ∨ ∃ t, debugToken = some t ∧ t ≠ "") →
        handleConfigCheck nodeEnv debugToken = .dump ∧
        apiConfigHandler nodeEnv debugToken = .dump) := by
  constructor
  · rintro ⟨henv, htok⟩
    subst henv
    rcases htok with h | h <;> subst h <;> exact ⟨rfl, rfl⟩
  · intro h
    have hcond : (nodeEnv == some "production" && !(jsTruthy debugToken)) = false := by
      rcases h with henv | ⟨t, ht, hne⟩
      · have he : (nodeEnv == some "production") = false := by simpa using henv
        simp [he]
      · subst ht
        have ht' : jsTruthy (some t) = true := by simp [jsTruthy, hne]
        simp [ht']
    exact ⟨by simp [handleConfigCheck, hcond], by simp [apiConfigHandler, hcond]⟩

/-- Claim C8 witness: production without token is denied by both handlers;
development without token, and production with a non-empty token, are both
served the dump. -/
theorem c8_config_endpoint_gating_witness :
    (handleConfigCheck (some "production") none
        = .denied 403
            [("error", "Access denied"),
              ("message", "Configuration endpoint requires debug_token in production")] ∧
      apiConfigHandler (some "production") none
        = .denied 403 [("error", "Access denied")]) ∧
    (handleConfigCheck (some "development") none = .dump ∧
      apiConfigHandler (some "development") none = .dump) ∧
    (handleConfigCheck (some "production") (some "secret") = .dump ∧
      apiConfigHandler (some "production") (some "secret") = .dump) :=
  ⟨(c8_config_endpoint_gating (some "production") none).1 ⟨rfl, Or.inl rfl⟩,
    (c8_config_endpoint_gating (some "development") none).2 (Or.inl (by decide)),
    (c8_config_endpoint_gating (some "production") (some "secret")).2
      (Or.inr ⟨"secret", rfl, by decide⟩)⟩

-- ============================================
-- Claim C9
-- ============================================

lemma stepShutdown_shutting (e : ShutdownEvent) :
    stepShutdown ⟨true⟩ e = (⟨true⟩, false) := by
  cases e <;> rfl

lemma foldShutdown_shutting (es : List ShutdownEvent) (n : Nat) :
    es.foldl shutdownFoldStep (⟨true⟩, n) = (⟨true⟩, n) := by
  induction es with
  | nil => rfl
  | cons e t ih =>
      rw [List.foldl_cons]
      have hstep : shutdownFoldStep (⟨true⟩, n) e = (⟨true⟩, n) := by
        simp [shutdownFoldStep, stepShutdown_shutting]
      rw [hstep, ih]

/-- Claim C9: once a shutdown is in progress (`isShuttingDown` set), every
subsequent signal or emergency trigger is ignored — the state is unchanged
and the cleanup routine is entered zero further times; and from the
initial state, any sequence of shutdown events enters the cleanup routine
at most once. -/
theorem c9_single_inflight_shutdown_guard (es : List ShutdownEvent) :
    runShutdownEvents ⟨true⟩ es = (⟨true⟩, 0) ∧
    (runShutdownEvents ⟨false⟩ es).2 ≤ 1 := by
  refine ⟨foldShutdown_shutting es 0, ?_⟩
  cases es with
  | nil => simp [runShutdownEvents]
  | cons e t =>
      show (t.foldl shutdownFoldStep (shutdownFoldStep (⟨false⟩, 0) e)).2 ≤ 1
      have hstep : shutdownFoldStep (⟨false⟩, 0) e = (⟨true⟩, 1) := by
        cases e <;> rfl
      rw [hstep, foldShutdown_shutting]

-- ============================================
-- Claim C10
-- ============================================

/-- Claim C10: a request carrying no Host header resolves exactly as a
request for the literal host "localhost"; consequently, when some
application uniquely declares "localhost" among its domains (and has a
non-empty name), a host-less request routes to that application rather
than to the configured default. -/
theorem c10_missing_host_defaults_to_localhost (cfg : Config) (A : ServerCfg)
    (hA : A ∈ cfg.servers) (hl : "localhost" ∈ A.domains)
    (huniq : ∀ s ∈ cfg.servers, "localhost" ∈ s.domains → s = A)
    (hname : A.name ≠ "") :
    resolveRequest cfg none = resolveRequest cfg (some "localhost") ∧
    resolveRequest cfg none = .str A.name := by
  have h1 : resolveRequest cfg none = resolveRequest cfg (some "localhost") := rfl
  refine ⟨h1, ?_⟩
  rw [h1]
  exact resolve_declared_domain cfg A "localhost" hA hl huniq
    (by decide) (by decide) (by decide) (by decide) hname

/-- Claim C10 witness: in the demo configuration alpha declares
"localhost", and a host-less request resolves to alpha. -/
theorem c10_missing_host_witness :
    resolveRequest demoCfg none = resolveRequest demoCfg (some "localhost") ∧
    resolveRequest demoCfg none = .str alphaS.name :=
  c10_missing_host_defaults_to_localhost demoCfg alphaS
    (by decide) (by decide) (by decide) (by decide)

end Multihost
